import Mathlib

/-!
Shallow embedding of the rule-based matching and merge engine of the
coolbeans repository (src/coolbeans/rule.py, matcher.py, organizer.py,
merge.py), together with proofs settling the frozen claims about it.

Python dynamic values are embedded as explicit sum types; in-place dict
mutation is embedded as explicit state passing; `assert` failures, raised
exceptions and type errors are embedded as `Except String` errors.  Flags
are the one-character strings used by beancount: "!" (pending), "*"
(confirmed), "P" (computed), "M" (merged).
-/

/-- Calendar date, as beancount's `datetime.date`; ordered lexicographically. -/
structure Date where
  year : Nat
  month : Nat
  day : Nat
deriving DecidableEq

/-- Python comparison of `datetime.date` values. -/
def Date.lt (a b : Date) : Bool :=
  a.year < b.year ∨ (a.year = b.year ∧ (a.month < b.month ∨ (a.month = b.month ∧ a.day < b.day)))

/-- A beancount `tags`/`links` slot.  It normally holds a set of strings, but
`Transaction._replace(tags=value)` in `Rule.modify_entry` stores whatever raw
value the Set Rule carried, so the slot is a sum of the two shapes. -/
inductive StrOrList where
  | str (s : String)
  | list (l : List String)
deriving DecidableEq

/-- A posting: one leg of a transaction (organizer.py and rule.py read its
`account`, `flag`, `price` and `meta` attributes).  `priceNumber` is
`posting.price.number` when a price is attached. -/
structure Posting where
  account : String
  flag : String
  priceNumber : Option Int
  meta : List (String × String)
deriving DecidableEq

/-- A metadata value on an entry.  Ledger files produce strings and numbers;
`organizer.py`'s `guess_account` can also store a whole `Posting` object into
`entry.meta['_account']` (its for-else fallback returns `entry.postings[0]`,
not an account string). -/
inductive MetaVal where
  | str (s : String)
  | num (n : Int)
  | posting (p : Posting)
deriving DecidableEq

/-- Python truthiness of a metadata value (`if not match_key: ...`). -/
def MetaVal.truthy : MetaVal → Bool
  | .str s => !s.isEmpty
  | .num n => n ≠ 0
  | .posting _ => true

/-- The beancount directive constructors the merge/sort engine distinguishes
with `isinstance` checks. -/
inductive EntryKind where
  | openDir
  | closeDir
  | balance
  | note
  | document
  | transaction
  | custom
deriving DecidableEq

/-- Whether `hasattr(entry, 'account')` holds for this directive type. -/
def EntryKind.hasAccountAttr : EntryKind → Bool
  | .openDir => true
  | .closeDir => true
  | .balance => true
  | .note => true
  | .document => true
  | .transaction => false
  | .custom => false

/-- Whether `hasattr(entry, 'flag')` holds for this directive type (only
transactions carry a flag). -/
def EntryKind.hasFlagAttr : EntryKind → Bool
  | .transaction => true
  | _ => false

/-- A ledger entry.  One record embeds all directive shapes; `kind` selects
which attributes exist (duck typing is embedded through the `hasattr`
functions above).  `payee` is `Option` because beancount stores `None` for a
missing payee. -/
structure Entry where
  kind : EntryKind
  date : Date
  flag : String
  narration : String
  payee : Option String
  comment : String
  accountName : String
  tags : StrOrList
  links : StrOrList
  meta : List (String × MetaVal)
  postings : List Posting
deriving DecidableEq

/-- Python dict lookup on an insertion-ordered association list. -/
def assocGet {α : Type} (m : List (String × α)) (k : String) : Option α :=
  match m with
  | [] => none
  | (k', v) :: rest => if k' = k then some v else assocGet rest k

/-- Python dict assignment `m[k] = v`: overwrite in place if the key exists
(keeping its position, as dicts do), else append. -/
def assocSet {α : Type} (m : List (String × α)) (k : String) (v : α) : List (String × α) :=
  match m with
  | [] => [(k, v)]
  | (k', v') :: rest => if k' = k then (k, v) :: rest else (k', v') :: assocSet rest k v

/-- Python truthiness of an optional string (`if sr.meta_key:` is false both
for `None` and for the empty string). -/
def truthyOptStr : Option String → Bool
  | none => false
  | some s => !s.isEmpty

/-- `str.title()` for ASCII strings: letters starting a run of letters are
uppercased, the rest lowercased. -/
def pyTitle (s : String) : String :=
  let step := fun (acc : List Char × Bool) (c : Char) =>
    if c.isAlpha then
      (acc.1 ++ [if acc.2 then c.toLower else c.toUpper], true)
    else
      (acc.1 ++ [c], false)
  String.mk (s.data.foldl step ([], false)).1

/-! ### A small regular-expression engine

The patterns the claims exercise use only literal characters, `.` and a
postfix `*`.  `reTokens` parses exactly that fragment; anything else (groups,
classes, escapes, anchors) falls outside the model and is reported as a model
error by the matching functions, never silently mis-matched.  Matching is
`re.Pattern.match` semantics: the pattern must match a prefix of the string.
Compilation in rule.py uses `re.compile(v)` with no flags, so matching is
case-sensitive. -/

/-- One token of the supported regex fragment. -/
inductive RTok where
  | lit (c : Char)
  | dot
  | starLit (c : Char)
  | starDot
deriving DecidableEq

/-- Characters that start regex syntax outside the supported fragment. -/
def reUnsupported (c : Char) : Bool :=
  c ∈ (['*', '(', ')', '[', ']', '?', '+', '\\', '|', '^', '$'] : List Char)

/-- Tokenize a pattern of the supported fragment; `none` for patterns outside
the fragment. -/
def reTokens : List Char → Option (List RTok)
  | [] => some []
  | c :: '*' :: rest =>
    if reUnsupported c then none
    else (reTokens rest).map (fun ts => (if c = '.' then RTok.starDot else RTok.starLit c) :: ts)
  | c :: rest =>
    if reUnsupported c then none
    else (reTokens rest).map (fun ts => (if c = '.' then RTok.dot else RTok.lit c) :: ts)

/-- Does the token list match some prefix of the character list?  Fueled
recursion; every recursive call shrinks `toks.length + cs.length`. -/
def reMatchAux (fuel : Nat) (toks : List RTok) (cs : List Char) : Bool :=
  match fuel with
  | 0 => false
  | fuel' + 1 =>
    match toks, cs with
    | [], _ => true
    | RTok.lit c :: ts, c' :: cs' => c = c' && reMatchAux fuel' ts cs'
    | RTok.lit _ :: _, [] => false
    | RTok.dot :: ts, _ :: cs' => reMatchAux fuel' ts cs'
    | RTok.dot :: _, [] => false
    | RTok.starLit c :: ts, _ =>
      reMatchAux fuel' ts cs ||
        (match cs with
         | c' :: cs' => c = c' && reMatchAux fuel' (RTok.starLit c :: ts) cs'
         | [] => false)
    | RTok.starDot :: ts, _ =>
      reMatchAux fuel' ts cs ||
        (match cs with
         | _ :: cs' => reMatchAux fuel' (RTok.starDot :: ts) cs'
         | [] => false)

/-- `compiled_pattern.match(value)`: `some true/false` when the pattern lies in
the supported fragment, `none` when it does not. -/
def reMatch (pattern value : String) : Option Bool :=
  match reTokens pattern.data with
  | none => none
  | some toks => some (reMatchAux (toks.length + value.data.length + 1) toks value.data)

example : reMatch "amazon.*" "amazon mktp us*123" = some true := by decide
example : reMatch "amazon.*" "AMAZON MKTP US*123" = some false := by decide
example : reMatch "X.*" "X123" = some true := by decide

/-! ### rule.py: key grammar

`rule.py` parses rule keys with ordered lists of regular expressions
(`MATCH_KEY_RE`, `KEY_RE`, `SUB_KEY_RE`, `MATCH_SUB_KEY_RE`); `match_any_re`
returns the groupdict of the first expression that fullmatches.  A groupdict
distinguishes an absent group name from a group that matched nothing, so it
is embedded as an association list of `Option String`; each parser below
implements its regex list exactly (split on dashes, `\w+` word components,
directive tokens `tx|transaction|posting|pst`, and a trailing `.*` meta
name that may itself contain dashes). -/

/-- Split a character list on dashes (semantics of `str.split('-')`). -/
def splitDashAux : List Char → List Char → List String
  | [], acc => [String.mk acc.reverse]
  | '-' :: rest, acc => String.mk acc.reverse :: splitDashAux rest []
  | c :: rest, acc => splitDashAux rest (c :: acc)

/-- `key.split('-')`. -/
def splitOnDash (s : String) : List String :=
  splitDashAux s.data []

/-- `'-'.join(parts)` (used to read back a dashed meta name). -/
def dashJoin : List String → String
  | [] => ""
  | [s] => s
  | s :: rest => s ++ "-" ++ dashJoin rest

/-- `s.lower()` for ASCII strings. -/
def pyLower (s : String) : String :=
  String.mk (s.data.map Char.toLower)

/-- `s.strip()`: drop leading and trailing whitespace. -/
def pyStrip (s : String) : String :=
  String.mk (((s.data.dropWhile Char.isWhitespace).reverse.dropWhile Char.isWhitespace).reverse)

/-- `s.startswith(p)`. -/
def pyStartsWith (s p : String) : Bool :=
  p.data.isPrefixOf s.data

/-- `s[n:]`. -/
def pyDrop (s : String) (n : Nat) : String :=
  String.mk (s.data.drop n)

example : pyStartsWith "match-narration" "match" = true := by decide
example : pyLower "Match-KEY" = "match-key" := by decide

/-- A Python `match.groupdict()`: group name to captured text or `None`. -/
structure GD where
  entries : List (String × Option String)
deriving DecidableEq

/-- `groupdict.get(k, None)`. -/
def GD.get (g : GD) (k : String) : Option String :=
  match assocGet g.entries k with
  | none => none
  | some v => v

/-- `groupdict.get(k, d)`: the stored value (even `None`) when the key is
present, else the default. -/
def GD.getD (g : GD) (k : String) (d : Option String) : Option String :=
  match assocGet g.entries k with
  | none => d
  | some v => v

/-- `dict.setdefault(k, v)`: only inserts when the key is absent (a key
present with value `None` is left alone). -/
def GD.setdefault (g : GD) (k v : String) : GD :=
  match assocGet g.entries k with
  | none => ⟨g.entries ++ [(k, some v)]⟩
  | some _ => g

/-- Remove a key from a groupdict (helper for `dict.pop`). -/
def gdRemove : List (String × Option String) → String → List (String × Option String)
  | [], _ => []
  | (k', v) :: rest, k => if k' = k then rest else (k', v) :: gdRemove rest k

/-- `dict.pop(k, None)`: the value (flattened as `get`) and the dict without
the key. -/
def GD.pop (g : GD) (k : String) : Option String × GD :=
  (g.get k, ⟨gdRemove g.entries k⟩)

/-- A `\w+` component: nonempty, alphanumeric or underscore. -/
def isWordStr (s : String) : Bool :=
  !s.isEmpty && s.data.all (fun c => c.isAlphanum || c = '_')

/-- The scope tokens accepted by the key grammar. -/
def dirTokens : List String := ["tx", "transaction", "posting", "pst"]

/-- The `((?P<directive>tx|transaction|posting|pst)-)?(?P<parameter>meta)-(?P<meta>.*)`
suffix shared by the last alternative of every key regex list: an optional
directive, the literal component `meta`, and a rest (joined back with dashes,
possibly empty) captured as the meta name.  Returns
`(directive group value, meta name)`. -/
def parseMetaTail (parts : List String) : Option (Option String × String) :=
  match parts with
  | "meta" :: tail =>
    if tail = [] then none else some (none, dashJoin tail)
  | d :: "meta" :: tail =>
    if d ∈ dirTokens ∧ tail ≠ [] then some (some d, dashJoin tail) else none
  | _ => none

/-- `match_any_re(MATCH_KEY_RE, key)`: the four alternatives
`match`, `match-(\w+)`, `match-((dir)-)?(\w+)` and
`match-((dir)-)?meta-(.*)`, first fullmatch wins. -/
def matchKeyParts (key : String) : Option GD :=
  match splitOnDash key with
  | ["match"] => some ⟨[]⟩
  | ["match", w] =>
    if isWordStr w then some ⟨[("parameter", some w)]⟩
    else none
  | ["match", d, w] =>
    if d ∈ dirTokens ∧ isWordStr w then
      some ⟨[("directive", some d), ("parameter", some w)]⟩
    else
      match parseMetaTail [d, w] with
      | some (dir, m) => some ⟨[("directive", dir), ("parameter", some "meta"), ("meta", some m)]⟩
      | none => none
  | "match" :: rest =>
    match parseMetaTail rest with
    | some (dir, m) => some ⟨[("directive", dir), ("parameter", some "meta"), ("meta", some m)]⟩
    | none => none
  | _ => none

/-- `match_any_re(KEY_RE, key)`: like `matchKeyParts` but the command prefix
is `set|match|test` and the meta group is named `meta_key`. -/
def keyParts (key : String) : Option GD :=
  match splitOnDash key with
  | [c] =>
    if c = "set" ∨ c = "match" ∨ c = "test" then some ⟨[("command", some c)]⟩ else none
  | c :: rest =>
    if c = "set" ∨ c = "match" ∨ c = "test" then
      match rest with
      | [w] =>
        if isWordStr w then some ⟨[("command", some c), ("parameter", some w)]⟩ else none
      | [d, w] =>
        if d ∈ dirTokens ∧ isWordStr w then
          some ⟨[("command", some c), ("directive", some d), ("parameter", some w)]⟩
        else
          match parseMetaTail [d, w] with
          | some (dir, m) =>
            some ⟨[("command", some c), ("directive", dir), ("parameter", some "meta"),
                   ("meta_key", some m)]⟩
          | none => none
      | _ =>
        match parseMetaTail rest with
        | some (dir, m) =>
          some ⟨[("command", some c), ("directive", dir), ("parameter", some "meta"),
                 ("meta_key", some m)]⟩
        | none => none
    else none
  | _ => none

/-- `match_any_re(SUB_KEY_RE, key)`: `(\w+)`, `((dir)-)?(\w+)`,
`((dir)-)?meta-(.*)` with the meta group named `meta_key`. -/
def subKeyParts (key : String) : Option GD :=
  match splitOnDash key with
  | [w] =>
    if isWordStr w then some ⟨[("parameter", some w)]⟩ else none
  | [d, w] =>
    if d ∈ dirTokens ∧ isWordStr w then
      some ⟨[("directive", some d), ("parameter", some w)]⟩
    else
      match parseMetaTail [d, w] with
      | some (dir, m) =>
        some ⟨[("directive", dir), ("parameter", some "meta"), ("meta_key", some m)]⟩
      | none => none
  | parts =>
    match parseMetaTail parts with
    | some (dir, m) =>
      some ⟨[("directive", dir), ("parameter", some "meta"), ("meta_key", some m)]⟩
    | none => none

/-- `match_any_re(MATCH_SUB_KEY_RE, key)`: same shape as `subKeyParts` but
the meta group is named `meta`. -/
def matchSubKeyParts (key : String) : Option GD :=
  match splitOnDash key with
  | [w] =>
    if isWordStr w then some ⟨[("parameter", some w)]⟩ else none
  | [d, w] =>
    if d ∈ dirTokens ∧ isWordStr w then
      some ⟨[("directive", some d), ("parameter", some w)]⟩
    else
      match parseMetaTail [d, w] with
      | some (dir, m) =>
        some ⟨[("directive", dir), ("parameter", some "meta"), ("meta", some m)]⟩
      | none => none
  | parts =>
    match parseMetaTail parts with
    | some (dir, m) =>
      some ⟨[("directive", dir), ("parameter", some "meta"), ("meta", some m)]⟩
    | none => none

example : matchKeyParts "match-narration" = some ⟨[("parameter", some "narration")]⟩ := by decide
example : matchKeyParts "match-transaction-narration" =
    some ⟨[("directive", some "transaction"), ("parameter", some "narration")]⟩ := by decide
example : matchKeyParts "match-tx-meta-custom1-field" =
    some ⟨[("directive", some "tx"), ("parameter", some "meta"), ("meta", some "custom1-field")]⟩ := by
  decide
example : matchKeyParts "match-meta-custom1" =
    some ⟨[("directive", none), ("parameter", some "meta"), ("meta", some "custom1")]⟩ := by decide
example : matchKeyParts "XXXmatch-meta-custom1-field" = none := by decide
example : matchKeyParts "match__" = none := by decide
example : keyParts "miss" = none := by decide
example : keyParts "match" = some ⟨[("command", some "match")]⟩ := by decide

/-! ### rule.py: directive attributes, MatchRule, SetRule, Rule -/

/-- A raw rule-dict value: YAML gives strings, lists of strings, or nested
mappings. -/
inductive RuleVal where
  | str (s : String)
  | list (l : List String)
  | dict (kvs : List (String × RuleVal))

/-- `decode_value`: the source feeds string values through
`yaml.load(value, FullLoader)` and keeps the original on a `ValueError`.
The YAML scalar decoder is an external collaborator; on the plain,
non-numeric scalar strings every claim exercises it returns the string
itself, and non-strings bypass decoding, so the embedding is the identity. -/
def decode_value (v : RuleVal) : RuleVal := v

/-- A compiled match rule: a directive attribute plus a set of compiled
regular expressions.  `re.compile` caches pattern objects, so a Python set
of compiled patterns behaves as a set of pattern strings; the set is kept as
an insertion-ordered duplicate-free list and compared with set semantics
(`matchRuleEq`).  `command` is the dataclass field `DirectiveAttribute.command`
(never set on match rules). -/
structure MatchRule where
  command : Option String
  directive : Option String
  parameter : Option String
  meta_key : Option String
  regular_expressions : List String
deriving DecidableEq

/-- A compiled set rule: a directive attribute plus the literal replacement
payload. -/
structure SetRule where
  command : Option String
  directive : Option String
  parameter : Option String
  meta_key : Option String
  value : RuleVal

/-- Python set insertion (`add` / `if r not in ...: add`): append if new. -/
def setAdd (l : List String) (x : String) : List String :=
  if x ∈ l then l else l ++ [x]

/-- `{re.compile(v) for v in values}` over a list of pattern strings. -/
def pySet (l : List String) : List String :=
  l.foldl setAdd []

/-- Python set equality of two pattern sets held as lists. -/
def setEqList (a b : List String) : Bool :=
  a.all (fun x => b.contains x) && b.all (fun x => a.contains x)

/-- `MatchRule.__eq__`: compares `(directive, parameter, meta_key,
regular_expressions)`, the last with set semantics, and ignores `command`. -/
def matchRuleEq (a b : MatchRule) : Bool :=
  decide (a.directive = b.directive) && decide (a.parameter = b.parameter) &&
    decide (a.meta_key = b.meta_key) &&
    setEqList a.regular_expressions b.regular_expressions

/-- Render an optional value the way an f-string renders it (`None` for a
missing one). -/
def optRepr : Option String → String
  | some s => s
  | none => "None"

/-- `MatchRule.key`: `f"{directive}-{parameter}"` plus `-{meta_key}` when the
meta key is truthy. -/
def MatchRule.key (m : MatchRule) : String :=
  let base := optRepr m.directive ++ "-" ++ optRepr m.parameter
  if truthyOptStr m.meta_key then base ++ "-" ++ optRepr m.meta_key else base

/-- `MatchRule.extend`: asserts the two rules target the same triple, then
adds the other rule's expressions that are not already present. -/
def MatchRule.extend (self other : MatchRule) : Except String MatchRule :=
  if self.directive ≠ other.directive then .error "AssertionError: extend directive"
  else if self.parameter ≠ other.parameter then .error "AssertionError: extend parameter"
  else if self.meta_key ≠ other.meta_key then .error "AssertionError: extend meta_key"
  else .ok { self with
    regular_expressions := other.regular_expressions.foldl setAdd self.regular_expressions }

/-- A compiled rule: match requirements keyed by `MatchRule.key` (a dict in
insertion order) and an ordered list of set rules.  The source also carries
`actions`, `assertions` and `tests` slots that no claim-relevant code path
ever populates or reads (`add_tests_directive` is unreachable because a
`tests` key fails the command assertion first); they are omitted. -/
structure Rule where
  match_requirements : List (String × MatchRule)
  set_rules : List SetRule

/-- `Rule.upset_match_rule`: extend the existing rule under the same key, or
insert a new one. -/
def Rule.upset_match_rule (r : Rule) (m : MatchRule) : Except String Rule :=
  match assocGet r.match_requirements m.key with
  | some existing => do
    let ext ← existing.extend m
    .ok { r with match_requirements := assocSet r.match_requirements m.key ext }
  | none =>
    .ok { r with match_requirements := assocSet r.match_requirements m.key m }

/-- The scope/field defaulting block that `add_match_directive` performs on a
parsed key (duplicated in the source for the nested and the flat branch):
narration/tags/payee force transaction scope, account forces posting scope,
and a meta field requires a truthy meta name. -/
def matchFieldDefaults (dir : Option String) (fieldName : Option String)
    (metaName : Option String) : Except String (Option String) :=
  if fieldName = some "narration" ∨ fieldName = some "tags" ∨ fieldName = some "payee" then
    if dir = none ∨ dir = some "transaction" then .ok (some "transaction")
    else .error "AssertionError: scope mismatch"
  else if fieldName = some "account" then
    if dir = none ∨ dir = some "posting" then .ok (some "posting")
    else .error "AssertionError: scope mismatch"
  else if fieldName = some "meta" then
    if truthyOptStr metaName then .ok dir
    else .error "AssertionError: Meta requires an addition name"
  else .ok dir

/-- The pattern payload `{re.compile(v) for v in values}`: a string becomes a
one-element set, a list its set of members; iterating a dict yields its keys. -/
def patternsOf (v : RuleVal) : List String :=
  match v with
  | .str s => pySet [s]
  | .list l => pySet l
  | .dict kvs => pySet (kvs.map (fun kv => kv.1))

/-- One nested item of `add_match_directive`'s dict branch. -/
def addNestedMatch (r : Rule) (fieldKey : String) (nested : RuleVal) : Except String Rule := do
  match matchSubKeyParts fieldKey with
  | none => .error "AttributeError: NoneType has no attribute get"
  | some kp =>
    let dir ← matchFieldDefaults (kp.get "directive") (kp.get "parameter") (kp.get "meta")
    let m : MatchRule :=
      { command := none, directive := dir, parameter := kp.get "parameter",
        meta_key := kp.get "meta", regular_expressions := patternsOf nested }
    r.upset_match_rule m

/-- `Rule.add_match_directive`: parse the key, then handle a nested dict
value (only under a bare `match` key) and/or a flat string/list value. -/
def Rule.add_match_directive (r : Rule) (key : String) (value : RuleVal) :
    Except String Rule := do
  match matchKeyParts key with
  | none => .error "AssertionError: unable to parse as a match directive"
  | some kp => do
    let r ←
      match value with
      | .dict kvs =>
        if key ≠ "match" then
          .error "AssertionError: only expect a dict under a match directive"
        else
          kvs.foldlM (fun racc kv => addNestedMatch racc kv.1 kv.2) r
      | _ => .ok r
    match value with
    | .str _ | .list _ => do
      let dir ← matchFieldDefaults (kp.get "directive") (kp.get "parameter") (kp.get "meta")
      let m : MatchRule :=
        { command := none, directive := dir, parameter := kp.get "parameter",
          meta_key := kp.get "meta", regular_expressions := patternsOf value }
      r.upset_match_rule m
    | .dict _ => .ok r

/-- `Rule.default_key_match`: `setdefault` the scope from the field name
(narration/payee/tags/meta default to transaction, account to posting; a
`directive` group present with value `None` is left alone by `setdefault`). -/
def default_key_match (g : GD) : GD :=
  let p := g.get "parameter"
  let g :=
    if p = some "narration" ∨ p = some "payee" ∨ p = some "tags" ∨ p = some "meta" then
      g.setdefault "directive" "transaction"
    else g
  if p = some "account" then g.setdefault "directive" "posting" else g

/-- A `DirectiveAttribute` as `expand_rule_dict` builds it, together with the
dynamically attached `value` slot. -/
structure DirAttr where
  command : Option String
  directive : Option String
  parameter : Option String
  meta_key : Option String
  value : RuleVal

/-- One sub-item of `expand_rule_dict`'s dict branch: the attribute object is
updated in place from the sub-key's groups (`r.get(name, current)` keeps the
current value only when the group name is absent, not when it is `None`). -/
def expandSubItem (attr : DirAttr) (k : String) (v : RuleVal) : Except String DirAttr :=
  match subKeyParts k with
  | none => .error "ValueError: Invalid Key format"
  | some km =>
    let km := default_key_match km
    .ok { attr with
      directive := km.getD "directive" attr.directive,
      parameter := km.getD "parameter" attr.parameter,
      meta_key := km.getD "meta_key" attr.meta_key,
      value := v }

/-- The body of `expand_rule_dict` for one rule-dict item: yields the list of
directive attributes, or `none` to signal the generator's `return None` on a
`test` command (which ends the whole iteration). -/
def expandItem (key : String) (value : RuleVal) : Except String (Option (List DirAttr)) :=
  match keyParts key with
  | none => .error "ValueError: Invalid Key format"
  | some km =>
    let km := default_key_match km
    let (command, km) := km.pop "command"
    -- the source then assigns the local `directive = 'set'`, which is what
    -- lands in the attribute for every non-dict value
    let (parameter, km) := km.pop "parameter"
    let attr : DirAttr :=
      { command := command, directive := some "set", parameter := parameter,
        meta_key := km.get "meta_key", value := RuleVal.str "" }
    if command = some "test" then .ok none
    else
      match value with
      | .dict kvs => do
        let out ← kvs.foldlM
          (fun acc kv => do
            let attr' ← expandSubItem acc.2 kv.1 kv.2
            .ok (acc.1 ++ [attr'], attr'))
          (([] : List DirAttr), attr)
        .ok (some out.1)
      | _ => .ok (some [{ attr with value := value }])

/-- The iteration of `expand_rule_dict` over the rule-dict items. -/
def expandRuleGo : List (String × RuleVal) → List DirAttr → Except String (List DirAttr)
  | [], acc => .ok acc
  | (k, v) :: rest, acc => do
    match ← expandItem k v with
    | none => .ok acc
    | some attrs => expandRuleGo rest (acc ++ attrs)

/-- `Rule.expand_rule_dict` as a list of yielded attributes (the generator
stops early, without error, at the first `test` command key). -/
def expand_rule_dict (rd : List (String × RuleVal)) : Except String (List DirAttr) :=
  expandRuleGo rd []

/-- `TRANSACTION_PARAMETERS` (the source lists `narration` twice). -/
def transactionParameters : List String :=
  ["narration", "tags", "payee", "narration", "links", "flag"]

/-- `Rule.setdefault_params`: normalize `tx`/`trans`, then force the scope
from the parameter.  The assertion message of the transaction branch
references an undefined name, so its failure surfaces as a `NameError`. -/
def setdefault_params (a : DirAttr) : Except String DirAttr :=
  let a :=
    if a.directive = some "tx" ∨ a.directive = some "trans" then
      { a with directive := some "transaction" }
    else a
  match a.parameter with
  | some p =>
    if p ∈ transactionParameters then
      if a.directive = none ∨ a.directive = some "transaction" then
        .ok { a with directive := some "transaction" }
      else .error "NameError: name transaction_parameters is not defined"
    else if p = "account" then
      if a.directive = none ∨ a.directive = some "posting" then
        .ok { a with directive := some "posting" }
      else .error "AssertionError: scope mismatch"
    else if p = "meta" then
      if truthyOptStr a.meta_key then .ok a
      else .error "AssertionError: Meta requires an addition name"
    else .ok a
  | none => .ok a

/-- `Rule.add_directives`: expand the rule dict and append a `SetRule` for
every attribute carrying a `set` command. -/
def Rule.add_directives (r : Rule) (rd : List (String × RuleVal)) : Except String Rule := do
  let attrs ← expand_rule_dict rd
  attrs.foldlM
    (fun racc da => do
      if da.command = some "set" ∨ da.command = some "match" ∨ da.command = some "test" then
        let da ← setdefault_params da
        if da.command = some "set" then
          .ok { racc with set_rules := racc.set_rules ++
            [{ command := none, directive := da.directive, parameter := da.parameter,
               meta_key := da.meta_key, value := da.value }] }
        else .ok racc
      else .error "AssertionError: command")
    r

/-- The `valid_fields` list of `Rule.compile`. -/
def validFields : List String :=
  ["account", "payee", "date", "tags", "narration", "posting", "transaction", "links", "meta"]

/-- One iteration of `Rule.compile`'s key loop: skip `match-key`, assert the
command, decode the value, lowercase the key, dispatch `match` keys, and then
assert every remaining dash component is a known field (the dispatch runs
before the field assertion, exactly as in the source; the unreachable
`tests` branch is omitted). -/
def compileItem (r : Rule) (key : String) (value : RuleVal) : Except String Rule := do
  if key = "match-key" then .ok r
  else
    match splitOnDash key with
    | [] => .error "ValueError"
    | command :: fields => do
      if command = "match" ∨ command = "set" ∨ command = "test" then
        let value := decode_value value
        let key := pyStrip (pyLower key)
        let r ←
          if pyStartsWith key "match" then r.add_match_directive key value
          else .ok r
        let _ ← fields.foldlM
          (fun _ f =>
            if f ∈ validFields then .ok ()
            else .error "AssertionError: field not in valid_fields")
          ()
        .ok r
      else .error "AssertionError: command not found in valid_commands"

/-- `Rule.compile`: the key loop followed by `add_directives` over the whole
dict. -/
def Rule.compile (r : Rule) (rd : List (String × RuleVal)) : Except String Rule := do
  let r ← rd.foldlM (fun racc kv => compileItem racc kv.1 kv.2) r
  r.add_directives rd

/-- `Rule.__init__`: start from empty requirement and set-rule collections
and compile the rule dict. -/
def mkRule (rd : List (String × RuleVal)) : Except String Rule :=
  Rule.compile { match_requirements := [], set_rules := [] } rd

/-! ### rule.py: matching an entry -/

/-- A Python value extracted from an entry attribute. -/
inductive PyVal where
  | str (s : String)
  | num (n : Int)
  | strs (l : List String)
  | dateVal (d : Date)
  | postingObj (p : Posting)
deriving DecidableEq

/-- Embed a metadata value as an extracted value. -/
def MetaVal.toPyVal : MetaVal → PyVal
  | .str s => .str s
  | .num n => .num n
  | .posting p => .postingObj p

/-- `getattr(tags_or_links_slot)`. -/
def StrOrList.toPyVal : StrOrList → PyVal
  | .str s => .str s
  | .list l => .strs l

/-- `getattr(entry, parameter)` for the attributes the rule engine names;
attributes a directive type does not carry raise `AttributeError`. -/
def entryAttr (e : Entry) (p : Option String) : Except String (Option PyVal) :=
  match p with
  | some "narration" =>
    if e.kind = .transaction then .ok (some (.str e.narration)) else .error "AttributeError"
  | some "payee" =>
    if e.kind = .transaction then .ok (e.payee.map PyVal.str) else .error "AttributeError"
  | some "flag" =>
    if e.kind.hasFlagAttr then .ok (some (.str e.flag)) else .error "AttributeError"
  | some "tags" =>
    if e.kind = .transaction then .ok (some e.tags.toPyVal) else .error "AttributeError"
  | some "links" =>
    if e.kind = .transaction then .ok (some e.links.toPyVal) else .error "AttributeError"
  | some "date" => .ok (some (.dateVal e.date))
  | some "account" =>
    if e.kind.hasAccountAttr then .ok (some (.str e.accountName)) else .error "AttributeError"
  | _ => .error "AttributeError"

/-- `getattr(posting, parameter)`. -/
def postingAttr (p : Posting) (param : Option String) : Except String (Option PyVal) :=
  match param with
  | some "account" => .ok (some (.str p.account))
  | some "flag" => .ok (some (.str p.flag))
  | _ => .error "AttributeError"

/-- `MatchRule.extract_value`: posting scope walks to the first posting
flagged `!` and returns `None` when there is none; a `meta` parameter indexes
the metadata dict directly (`KeyError` when the key is absent); otherwise the
value is plain attribute access. -/
def MatchRule.extract_value (mr : MatchRule) (e : Entry) : Except String (Option PyVal) :=
  if mr.directive = some "posting" then
    match e.postings.find? (fun p => p.flag = "!") with
    | none => .ok none
    | some p =>
      if mr.parameter = some "meta" then
        match mr.meta_key with
        | none => .error "KeyError"
        | some k =>
          match assocGet p.meta k with
          | some v => .ok (some (.str v))
          | none => .error "KeyError"
      else postingAttr p mr.parameter
  else
    if mr.parameter = some "meta" then
      match mr.meta_key with
      | none => .error "KeyError"
      | some k =>
        match assocGet e.meta k with
        | some v => .ok (some v.toPyVal)
        | none => .error "KeyError"
    else entryAttr e mr.parameter

/-- Named-capture map of a match (the supported regex fragment has no groups,
so a successful match yields the empty groupdict). -/
def Captures := List (String × String)

/-- The `for reg in self.regular_expressions` loop of `match_entry`: first
pattern that matches wins.  The source iterates a Python set whose order is
unspecified; the insertion-ordered list stands in for it, which only matters
for which groupdict wins when several group-carrying patterns match. -/
def matchLoop (pats : List String) (s : String) : Except String (Option (List (String × String))) :=
  match pats with
  | [] => .ok none
  | p :: rest =>
    match reMatch p s with
    | none => .error "model: pattern outside the supported regex fragment"
    | some true => .ok (some [])
    | some false => matchLoop rest s

/-- `MatchRule.match_entry`: extract the value and try each pattern.
`re.Pattern.match` demands a string; `None` (no pending posting) and
non-string extracts raise `TypeError`. -/
def MatchRule.match_entry (mr : MatchRule) (e : Entry) :
    Except String (Option (List (String × String))) := do
  match ← mr.extract_value e with
  | some (.str s) => matchLoop mr.regular_expressions s
  | some _ => .error "TypeError: expected string or bytes-like object"
  | none => .error "TypeError: expected string or bytes-like object, got NoneType"

/-- The requirement loop of `Rule.check` with the accumulated result dict. -/
def checkLoop (e : Entry) : List (String × MatchRule) → List (String × String) →
    Except String (Option (List (String × String)))
  | [], acc => .ok (some acc)
  | (_, mr) :: rest, acc => do
    match ← mr.match_entry e with
    | none => .ok none
    | some caps => checkLoop e rest (caps.foldl (fun a kv => assocSet a kv.1 kv.2) acc)

/-- `Rule.check`: every match requirement must pass (short-circuiting to
`None`), and the groupdicts are merged with `dict.update`. -/
def Rule.check (r : Rule) (e : Entry) : Except String (Option (List (String × String))) :=
  checkLoop e r.match_requirements []

/-! ### rule.py: Rule.modify_entry

`modify_entry` mixes `_replace` copies with one genuine in-place mutation:
`entry.meta[meta_name] = value` for captures named `meta_*`.  `_replace`
copies the namedtuple but shares the metadata dict, so that write also hits
the caller's entry unless a transaction-scope meta Set Rule already replaced
the dict with a copy (`meta = dict(entry.meta)`).  The embedding threads the
working entry, the state of the caller's metadata dict, and whether the two
still alias (`shared`). -/

/-- Aliasing state while `modify_entry` runs. -/
structure ModState where
  cur : Entry
  origMeta : List (String × MetaVal)
  shared : Bool

/-- `entry._replace(**{sr.parameter: sr.value})` for the fields a compiled
transaction-scope Set Rule can name.  Assignments that would store a value of
a foreign type into a structured slot (`date`, `postings`) are outside the
model and reported as errors. -/
def setTxField (e : Entry) (p : Option String) (v : RuleVal) : Except String Entry :=
  match p, v with
  | some "narration", .str s => .ok { e with narration := s }
  | some "payee", .str s => .ok { e with payee := some s }
  | some "flag", .str s => .ok { e with flag := s }
  | some "tags", .str s => .ok { e with tags := .str s }
  | some "tags", .list l => .ok { e with tags := .list l }
  | some "links", .str s => .ok { e with links := .str s }
  | some "links", .list l => .ok { e with links := .list l }
  | _, _ => .error "model: _replace outside the modeled fields"

/-- `posting._replace(**{sr.parameter: sr.value, 'flag': '*'})`: when the
parameter is itself `flag` the duplicate dict key collapses and only
`'*'` is stored. -/
def setPostingField (p : Posting) (param : Option String) (v : RuleVal) :
    Except String Posting :=
  match param, v with
  | some "flag", _ => .ok { p with flag := "*" }
  | some "account", .str s => .ok { p with account := s, flag := "*" }
  | _, _ => .error "model: posting _replace outside the modeled fields"

/-- One iteration of the capture-substitution loop: a `payee` capture fills
an empty payee (title-cased); a `meta_*` capture writes into the metadata
dict in place, reaching the caller's entry while the dict is still shared. -/
def capStep (st : ModState) (kv : String × String) : ModState :=
  let st :=
    if kv.1 = "payee" ∧ ¬ truthyOptStr st.cur.payee then
      { st with cur := { st.cur with payee := some (pyTitle kv.2) } }
    else st
  if pyStartsWith kv.1 "meta_" then
    let name := pyDrop kv.1 5
    { st with
      cur := { st.cur with meta := assocSet st.cur.meta name (.str kv.2) },
      origMeta := if st.shared then assocSet st.origMeta name (.str kv.2) else st.origMeta }
  else st

/-- The capture-substitution loop that runs after each Set Rule. -/
def applyCaptures (st : ModState) (mv : List (String × String)) : ModState :=
  mv.foldl capStep st

/-- The `for posting in entry.postings` loop of the posting branch: every
posting flagged `!` is rebuilt via `_replace`, the rest are kept. -/
def mapPostings : List Posting → Option String → RuleVal → Except String (List Posting)
  | [], _, _ => .ok []
  | p :: rest, param, v =>
    match (if p.flag = "!" then setPostingField p param v else .ok p) with
    | .error m => .error m
    | .ok q =>
      match mapPostings rest param v with
      | .error m => .error m
      | .ok qs => .ok (q :: qs)

/-- The scope dispatch of one Set Rule (before the capture loop). -/
def applySetBranch (st : ModState) (sr : SetRule) : Except String ModState :=
  if sr.directive = some "transaction" then
    if truthyOptStr sr.meta_key then
      match sr.meta_key, sr.value with
      | some k, .str s =>
        -- meta = dict(entry.meta); meta[k] = value; entry._replace(meta=meta)
        .ok { st with
          cur := { st.cur with meta := assocSet st.cur.meta k (.str s) }, shared := false }
      | _, _ => .error "model: non-scalar meta payload"
    else
      match setTxField st.cur sr.parameter sr.value with
      | .error m => .error m
      | .ok e' => .ok { st with cur := e' }
  else if sr.directive = some "posting" then
    match mapPostings st.cur.postings sr.parameter sr.value with
    | .error m => .error m
    | .ok ps => .ok { st with cur := { st.cur with postings := ps, flag := "*" } }
  else .ok st

/-- One Set Rule application inside `modify_entry`, including the capture
loop the source runs on every iteration. -/
def applySetRule (mv : List (String × String)) (st : ModState) (sr : SetRule) :
    Except String ModState :=
  match applySetBranch st sr with
  | .error m => .error m
  | .ok st1 => .ok (applyCaptures st1 mv)

/-- The `for sr in self.set_rules` loop. -/
def setRulesFold (mv : List (String × String)) :
    ModState → List SetRule → Except String ModState
  | st, [] => .ok st
  | st, sr :: rest =>
    match applySetRule mv st sr with
    | .error m => .error m
    | .ok st1 => setRulesFold mv st1 rest

/-- `Rule.modify_entry`: fold the Set Rules over the entry.  The first
component of the result is the returned entry, the second is the state of the
caller's entry object once the call returns (its metadata dict may have been
mutated in place). -/
def Rule.modify_entry (r : Rule) (e : Entry) (mv : List (String × String)) :
    Except String (Entry × Entry) :=
  match setRulesFold mv ⟨e, e.meta, true⟩ r.set_rules with
  | .error m => .error m
  | .ok st => .ok (st.cur, { e with meta := st.origMeta })

/-! ### matcher.py: the match_directives plugin -/

/-- `getattr(entry, 'flag', None)`. -/
def entryFlagAttr (e : Entry) : Option String :=
  if e.kind.hasFlagAttr then some e.flag else none

/-- The inner `for rule in rules` loop of `match_directives`: every matching
rule is applied cumulatively to the (rebound) entry. -/
def applyRulesLoop (e : Entry) (modified : Bool) :
    List Rule → Except String (Entry × Bool)
  | [] => .ok (e, modified)
  | r :: rest =>
    match r.check e with
    | .error m => .error m
    | .ok none => applyRulesLoop e modified rest
    | .ok (some mv) =>
      match r.modify_entry e mv with
      | .error m => .error m
      | .ok pair => applyRulesLoop pair.1 true rest

/-- The output streams `match_directives` accumulates (the suggestion-file
write of `mod_entries` is external I/O). -/
structure MDOut where
  newEntries : List Entry
  modEntries : List Entry
  noMatchEntries : List Entry
deriving DecidableEq

/-- One entry of the `match_directives` loop: entries whose flag attribute is
not `!` pass straight through to `new_entries`; pending entries run the rule
loop and land in `mod_entries` or `no_match_entries` as well. -/
def mdStep (rules : List Rule) (acc : MDOut) (e : Entry) : Except String MDOut :=
  if entryFlagAttr e ≠ some "!" then
    .ok { acc with newEntries := acc.newEntries ++ [e] }
  else
    match applyRulesLoop e false rules with
    | .error m => .error m
    | .ok pair =>
      .ok { newEntries := acc.newEntries ++ [pair.1],
            modEntries := if pair.2 then acc.modEntries ++ [pair.1] else acc.modEntries,
            noMatchEntries :=
              if pair.2 then acc.noMatchEntries else acc.noMatchEntries ++ [pair.1] }

/-- The `for entry in entries` loop of `match_directives`. -/
def mdFold (rules : List Rule) : MDOut → List Entry → Except String MDOut
  | acc, [] => .ok acc
  | acc, e :: rest =>
    match mdStep rules acc e with
    | .error m => .error m
    | .ok acc1 => mdFold rules acc1 rest

/-- `match_directives` over an already-loaded rule list (file loading, the
`coolbeans` settings lookup and the output-file write are external). -/
def match_directives (rules : List Rule) (entries : List Entry) : Except String MDOut :=
  mdFold rules ⟨[], [], []⟩ entries

/-! ### organizer.py: BeanOrganizer -/

/-- Split an account name on colons (`beancount.core.account.split`). -/
def splitColonAux : List Char → List Char → List String
  | [], acc => [String.mk acc.reverse]
  | ':' :: rest, acc => String.mk acc.reverse :: splitColonAux rest []
  | c :: rest, acc => splitColonAux rest (c :: acc)

/-- `account.split(name)`. -/
def splitOnColon (s : String) : List String :=
  splitColonAux s.data []

/-- The root component of an account name. -/
def accountRoot (a : String) : String :=
  match splitOnColon a with
  | [] => ""
  | r :: _ => r

/-- `BeanOrganizer.guess_account`: for a transaction with postings, the first
posting whose account root is `Assets` or `Liabilities`; the for-else
fallback returns the first *posting object* itself, not an account string
(merge.py inlines this same logic in its `safe_add_entry`).  Other directives
use their `account` attribute when they have one, else the literal
`"other"`. -/
def guess_account (e : Entry) : MetaVal :=
  if e.kind = .transaction ∧ e.postings ≠ [] then
    match e.postings.find?
        (fun p => accountRoot p.account = "Assets" ∨ accountRoot p.account = "Liabilities") with
    | some p => .str p.account
    | none =>
      match e.postings with
      | p :: _ => .posting p
      | [] => .str "other"
  else if e.kind.hasAccountAttr then .str e.accountName
  else .str "other"

/-- A decimal digit as a character. -/
def digitChar : Nat → Char
  | 0 => '0'
  | 1 => '1'
  | 2 => '2'
  | 3 => '3'
  | 4 => '4'
  | 5 => '5'
  | 6 => '6'
  | 7 => '7'
  | 8 => '8'
  | _ => '9'

/-- Digits of a natural number (fuel-driven so the kernel can evaluate it). -/
def natDigitsAux : Nat → Nat → List Char → List Char
  | 0, _, acc => acc
  | fuel + 1, n, acc =>
    if n < 10 then digitChar n :: acc
    else natDigitsAux fuel (n / 10) (digitChar (n % 10) :: acc)

/-- Decimal rendering of a natural number (for the `match-key-N` keys). -/
def natToStr (n : Nat) : String :=
  String.mk (natDigitsAux (n + 1) n [])

example : natToStr 1 = "1" := by decide
example : natToStr 12 = "12" := by decide

/-- The organizer's merge state: the working entry list and the duplicate
index (a dict keyed by whatever value sits under `match-key`). -/
structure OrgState where
  entries : List Entry
  duplicates : List (MetaVal × Entry)
deriving DecidableEq

/-- Duplicate-index lookup. -/
def dupGet (d : List (MetaVal × Entry)) (k : MetaVal) : Option Entry :=
  match d with
  | [] => none
  | (k', v) :: rest => if k' = k then some v else dupGet rest k

/-- The `while match_key and not found_match_key` loop shared verbatim by
`organizer.BeanOrganizer.remove_exising_duplicate` and
`merge.BeanOrganizer.safe_add_entry`: claim the key (or find its holder),
then move on to `match-key-1`, `match-key-2`, ...  Fueled recursion; the
iteration count is bounded by the number of metadata keys, so
`meta.length + 2` fuel is always enough. -/
def dupLoopAux (fuel : Nat) (e : Entry) (dups : List (MetaVal × Entry)) :
    Option MetaVal → Nat → List (MetaVal × Entry) × Option Entry
  | mk, count =>
    match fuel with
    | 0 => (dups, none)
    | fuel' + 1 =>
      match mk with
      | none => (dups, none)
      | some k =>
        if ¬ k.truthy then (dups, none)
        else
          match dupGet dups k with
          | some ex => (dups, some ex)
          | none =>
            dupLoopAux fuel' e (dups ++ [(k, e)])
              (assocGet e.meta ("match-key-" ++ natToStr (count + 1))) (count + 1)

/-- `BeanOrganizer.remove_exising_duplicate` (organizer.py): run the key loop
on the entry's explicit `match-key` metadata, and when an existing holder is
found, remove it from the working list only when it carries a flag that is
neither confirmed (`*`) nor equal to the incoming flag.  It returns `None` in
every branch; dropping the incoming entry is not in its power. -/
def remove_exising_duplicate (s : OrgState) (e : Entry) : OrgState :=
  let loopOut := dupLoopAux (e.meta.length + 2) e s.duplicates (assocGet e.meta "match-key") 0
  match loopOut.2 with
  | none => { s with duplicates := loopOut.1 }
  | some ex =>
    if ¬ ex.kind.hasFlagAttr then { s with duplicates := loopOut.1 }
    else if ex.flag = e.flag ∨ ex.flag = "*" then { s with duplicates := loopOut.1 }
    else
      { entries := if ex ∈ s.entries then s.entries.erase ex else s.entries,
        duplicates := loopOut.1 }

/-- `BeanOrganizer.safe_add_entry` (organizer.py).  `none` embeds the
`assert '_account' not in entry.meta` failure.  Open and Document directives
and `P`-flagged transactions return early; every other entry is tagged with
`_account`, run through the duplicate removal, and appended to the working
list twice. -/
def safe_add_entry (fmt : Entry → String) (s : OrgState) (e : Entry) : Option OrgState :=
  if (assocGet e.meta "_account").isSome then none
  else if e.kind = .openDir then some s
  else if e.kind = .document then some s
  else
    -- local `match_key` (explicit metadata or printer.format_entry fallback);
    -- computed here in the source and then never used again
    let _matchKey : MetaVal :=
      match assocGet e.meta "match-key" with
      | some v => if v.truthy then v else .str (fmt e)
      | none => .str (fmt e)
    if e.kind = .transaction ∧ e.postings ≠ [] ∧ e.flag = "P" then some s
    else
      let e' := { e with meta := assocSet e.meta "_account" (guess_account e) }
      let s' := remove_exising_duplicate s e'
      some { s' with entries := s'.entries ++ [e', e'] }

/-- Feed a list of loaded entries through `safe_add_entry` in load order. -/
def org_add_all (fmt : Entry → String) : OrgState → List Entry → Option OrgState
  | s, [] => some s
  | s, e :: rest =>
    match safe_add_entry fmt s e with
    | none => none
    | some s1 => org_add_all fmt s1 rest

/-! ### organizer.py: sort keys and sorted output -/

/-- `beancount.core.data.SORT_ORDER.get(type(entry), 0)`. -/
def sortOrderOf : EntryKind → Int
  | .openDir => -2
  | .balance => -1
  | .document => 1
  | .closeDir => 2
  | _ => 0

/-- `entry.meta.get('global-sort', 100)` / `entry.meta.get('sort', 100)`.
A present non-numeric hint would poison the later tuple comparison with a
`TypeError`; the model surfaces that when the key is built. -/
def metaSortHint (m : List (String × MetaVal)) (k : String) : Except String Int :=
  match assocGet m k with
  | none => .ok 100
  | some (.num n) => .ok n
  | some _ => .error "TypeError: unorderable sort hint"

/-- A sort key tuple, in the component order of the selected method. -/
inductive SortKeyVal where
  | byDate (g : Int) (d : Date) (l : Int) (t : Int) (a : List String) (m : Int) (x : String)
  | byAccount (g : Int) (a : List String) (d : Date) (l : Int) (t : Int) (m : Int) (x : String)
deriving DecidableEq

/-- Code-point lexicographic comparison of character lists (Python `str`
comparison; kept kernel-computable). -/
def listCharLt : List Char → List Char → Bool
  | [], [] => false
  | [], _ :: _ => true
  | _ :: _, [] => false
  | a :: as, b :: bs => a < b ∨ (a = b ∧ listCharLt as bs)

/-- Python `<` on strings. -/
def pyStrLt (a b : String) : Bool := listCharLt a.data b.data

/-- Lexicographic comparison of string lists (Python tuple-of-str `<`). -/
def listStrLt : List String → List String → Bool
  | [], [] => false
  | [], _ :: _ => true
  | _ :: _, [] => false
  | a :: as, b :: bs => pyStrLt a b ∨ (a = b ∧ listStrLt as bs)

/-- Python `<` on two sort-key tuples of the same method. -/
def sortKeyLt : SortKeyVal → SortKeyVal → Bool
  | .byDate g1 d1 l1 t1 a1 m1 x1, .byDate g2 d2 l2 t2 a2 m2 x2 =>
    g1 < g2 ∨ (g1 = g2 ∧ (Date.lt d1 d2 ∨ (d1 = d2 ∧
      (l1 < l2 ∨ (l1 = l2 ∧ (t1 < t2 ∨ (t1 = t2 ∧
        (listStrLt a1 a2 ∨ (a1 = a2 ∧ (m1 < m2 ∨ (m1 = m2 ∧ pyStrLt x1 x2)))))))))))
  | .byAccount g1 a1 d1 l1 t1 m1 x1, .byAccount g2 a2 d2 l2 t2 m2 x2 =>
    g1 < g2 ∨ (g1 = g2 ∧ (listStrLt a1 a2 ∨ (a1 = a2 ∧
      (Date.lt d1 d2 ∨ (d1 = d2 ∧ (l1 < l2 ∨ (l1 = l2 ∧
        (t1 < t2 ∨ (t1 = t2 ∧ (m1 < m2 ∨ (m1 = m2 ∧ pyStrLt x1 x2)))))))))))
  | _, _ => false

/-- `BeanOrganizer.sort_key`: account path from `meta['_account']` (a missing
key raises `KeyError`, a posting object stored there breaks `account.split`),
the first posting's negated absolute price and the narration for transactions
with postings, account/comment for notes; the `line_number` the source
computes is dead.  Unknown methods raise `ValueError`. -/
def sort_key (method : String) (e : Entry) : Except String SortKeyVal := do
  let acctKey ←
    match assocGet e.meta "_account" with
    | some (.str a) => .ok (splitOnColon a)
    | some _ => .error "TypeError: account.split expects a string"
    | none => .error "KeyError: _account"
  let amountKey : Int :=
    if e.kind = .transaction ∧ e.postings ≠ [] then
      match e.postings with
      | p :: _ =>
        match p.priceNumber with
        | some n => -(n.natAbs : Int)
        | none => 0
      | [] => 0
    else 0
  let textKey : String :=
    if e.kind = .transaction ∧ e.postings ≠ [] then e.narration else ""
  let (acctKey, textKey) :=
    if e.kind = .note then (splitOnColon e.accountName, e.comment) else (acctKey, textKey)
  let g ← metaSortHint e.meta "global-sort"
  let l ← metaSortHint e.meta "sort"
  if method = "date" then
    .ok (.byDate g e.date l (sortOrderOf e.kind) acctKey amountKey textKey)
  else if method = "account" then
    .ok (.byAccount g acctKey e.date l (sortOrderOf e.kind) amountKey textKey)
  else .error "ValueError: Unknown sort method"

/-- Stable insertion into a key-sorted list: the new element goes after every
element strictly below it and before equal ones it follows in the input
(matching the stability of Python's sort). -/
def insertSorted (x : SortKeyVal × Entry) :
    List (SortKeyVal × Entry) → List (SortKeyVal × Entry)
  | [] => [x]
  | y :: ys => if sortKeyLt y.1 x.1 then y :: insertSorted x ys else x :: y :: ys

/-- Stable insertion sort over precomputed keys. -/
def sortPairs (l : List (SortKeyVal × Entry)) : List (SortKeyVal × Entry) :=
  l.foldr insertSorted []

/-- `BeanOrganizer.sorted_entries`: compute each entry's key and sort the
working list stably by it. -/
def sorted_entries (method : String) (entries : List Entry) : Except String (List Entry) := do
  let keyed ← entries.mapM (fun e => do
    let k ← sort_key method e
    pure (k, e))
  .ok ((sortPairs keyed).map (fun kv => kv.2))

/-! ### merge.py: the earlier BeanOrganizer

merge.py carries the older iteration of the same class.  Its
`safe_add_entry` performs the duplicate handling inline, so its early
`return` statements really do drop the incoming entry, and it appends the
surviving entry once. -/

namespace Merge

/-- merge.py organizer state (`self.year` is the class attribute that is
never assigned; `if self.year:` only filters on a truthy year). -/
structure MState where
  entries : List Entry
  duplicates : List (MetaVal × Entry)
  year : Option Int
deriving DecidableEq

/-- `merge.BeanOrganizer.safe_add_entry`: year filter, match key (explicit
metadata or the rendered-text fallback `printer.format_entry`), in-place
`_account` tagging (the same inlined logic as `guess_account`), the shared
duplicate-key loop, and conflict resolution in which a found holder that is
confirmed or equally-flagged makes the function return *without appending*
the incoming entry. -/
def safe_add_entry (fmt : Entry → String) (s : MState) (e : Entry) : MState :=
  if (match s.year with
      | some y => decide (y ≠ 0) && decide ((e.date.year : Int) ≠ y)
      | none => false) then s
  else
    let mk0 : MetaVal :=
      match assocGet e.meta "match-key" with
      | some v => if v.truthy then v else .str (fmt e)
      | none => .str (fmt e)
    let e := { e with meta := assocSet e.meta "_account" (guess_account e) }
    let loopOut := dupLoopAux (e.meta.length + 2) e s.duplicates (some mk0) 0
    match loopOut.2 with
    | none => { s with duplicates := loopOut.1, entries := s.entries ++ [e] }
    | some ex =>
      if ¬ ex.kind.hasFlagAttr then { s with duplicates := loopOut.1 }
      else if ex.flag = e.flag ∨ ex.flag = "*" then { s with duplicates := loopOut.1 }
      else
        let kept := (if ex ∈ s.entries then s.entries.erase ex else s.entries) ++ [e]
        { s with duplicates := loopOut.1, entries := kept }

/-- Feed a list of loaded entries through merge.py's `safe_add_entry`. -/
def add_all (fmt : Entry → String) (s : MState) (es : List Entry) : MState :=
  es.foldl (safe_add_entry fmt) s

end Merge

/-! ### Scenario fixtures shared by the claims -/

/-- A pending posting on an asset account. -/
def bankPosting : Posting := ⟨"Assets:Bank", "!", none, []⟩

/-- A concrete stand-in for the external `printer.format_entry` renderer
(irrelevant to entries that carry an explicit `match-key`). -/
def fmtNarr : Entry → String := fun e => e.narration

/-- A transaction with the explicit match-key `K1`. -/
def keyedTxn (flag narr : String) : Entry :=
  ⟨.transaction, ⟨2020, 4, 8⟩, flag, narr, none, "", "", .list [], .list [],
    [("match-key", .str "K1")], [bankPosting]⟩

/-- The `entry.meta['_account'] = self.guess_account(entry)` tagging that
`safe_add_entry` performs before deduplication. -/
def tagAccount (e : Entry) : Entry :=
  { e with meta := assocSet e.meta "_account" (guess_account e) }

/-- C1 (code_bug): with two entries sharing the explicit match-key `K1`, one
flagged `!` and one `*`, organizer.py's merge engine keeps the `!` entry in
one load order and duplicates every survivor: loading `!` then `*` yields
`[!, *, *]`, and loading `*` then `!` yields `[*, *, !, !]`.  The claimed
output (exactly the `*` entry, once) is produced in neither order. -/
theorem claim1_code_bug_eval :
    (org_add_all fmtNarr ⟨[], []⟩ [keyedTxn "!" "pend", keyedTxn "*" "conf"]).map
        OrgState.entries =
      some [tagAccount (keyedTxn "!" "pend"), tagAccount (keyedTxn "*" "conf"),
            tagAccount (keyedTxn "*" "conf")] ∧
    (org_add_all fmtNarr ⟨[], []⟩ [keyedTxn "*" "conf", keyedTxn "!" "pend"]).map
        OrgState.entries =
      some [tagAccount (keyedTxn "*" "conf"), tagAccount (keyedTxn "*" "conf"),
            tagAccount (keyedTxn "!" "pend"), tagAccount (keyedTxn "!" "pend")] ∧
    (tagAccount (keyedTxn "!" "pend")).flag = "!" ∧
    (tagAccount (keyedTxn "*" "conf")).flag = "*" :=
  ⟨rfl, rfl, rfl, rfl⟩

/-- C2 (code_bug): with two `*`-flagged entries sharing the match-key `K1`,
organizer.py's merge engine retains both (each twice) instead of dropping the
second: the early `return` that should drop the incoming duplicate sits in
`remove_exising_duplicate`, so `safe_add_entry` appends it regardless. -/
theorem claim2_code_bug_eval :
    (org_add_all fmtNarr ⟨[], []⟩ [keyedTxn "*" "confA", keyedTxn "*" "confB"]).map
        OrgState.entries =
      some [tagAccount (keyedTxn "*" "confA"), tagAccount (keyedTxn "*" "confA"),
            tagAccount (keyedTxn "*" "confB"), tagAccount (keyedTxn "*" "confB")] ∧
    tagAccount (keyedTxn "*" "confA") ≠ tagAccount (keyedTxn "*" "confB") :=
  ⟨rfl, by decide⟩

/-- merge.py's older organizer does implement the claimed duplicate
suppression: in either load order only the `*` entry survives, once. -/
theorem merge_duplicate_suppression :
    (Merge.add_all fmtNarr ⟨[], [], none⟩ [keyedTxn "!" "pend", keyedTxn "*" "conf"]).entries =
      [tagAccount (keyedTxn "*" "conf")] ∧
    (Merge.add_all fmtNarr ⟨[], [], none⟩ [keyedTxn "*" "conf", keyedTxn "!" "pend"]).entries =
      [tagAccount (keyedTxn "*" "conf")] :=
  ⟨rfl, rfl⟩

/-- merge.py's older organizer also implements confirmed-entry protection:
of two `*` entries with one match-key, the first loaded survives, once. -/
theorem merge_confirmed_protection :
    (Merge.add_all fmtNarr ⟨[], [], none⟩ [keyedTxn "*" "confA", keyedTxn "*" "confB"]).entries =
      [tagAccount (keyedTxn "*" "confA")] :=
  rfl

/-- C9 (confirmed): every `safe_add_entry` call in organizer.py that does not
return early (entry not Open/Document, not a `P`-flagged transaction, and the
`_account` assertion passing) appends the `_account`-tagged incoming entry to
the working list exactly twice, after the duplicate pass. -/
theorem claim9_double_append (fmt : Entry → String) (s : OrgState) (e : Entry)
    (h1 : assocGet e.meta "_account" = none)
    (h2 : e.kind ≠ .openDir) (h3 : e.kind ≠ .document)
    (h4 : ¬ (e.kind = .transaction ∧ e.postings ≠ [] ∧ e.flag = "P")) :
    safe_add_entry fmt s e =
      some { remove_exising_duplicate s (tagAccount e) with
             entries := (remove_exising_duplicate s (tagAccount e)).entries ++
               [tagAccount e, tagAccount e] } := by
  unfold safe_add_entry
  rw [h1]
  simp only [Option.isSome_none, Bool.false_eq_true, if_false, if_neg h2, if_neg h3, if_neg h4]
  rfl

/-- Witness for C9 at a concrete state and entry. -/
theorem claim9_double_append_witness :
    safe_add_entry fmtNarr ⟨[], []⟩ (keyedTxn "!" "pend") =
      some { remove_exising_duplicate ⟨[], []⟩ (tagAccount (keyedTxn "!" "pend")) with
             entries := (remove_exising_duplicate ⟨[], []⟩
                 (tagAccount (keyedTxn "!" "pend"))).entries ++
               [tagAccount (keyedTxn "!" "pend"), tagAccount (keyedTxn "!" "pend")] } :=
  claim9_double_append fmtNarr ⟨[], []⟩ (keyedTxn "!" "pend")
    (by decide) (by decide) (by decide) (by decide)

/-! ### Claims about rule matching and mutation -/

/-- The match rule compiled from the directive `match-narration: "amazon.*"`. -/
def amazonMR : MatchRule :=
  ⟨none, some "transaction", some "narration", none, ["amazon.*"]⟩

/-- A pending transaction with an upper-case Amazon narration. -/
def upperAmazonTxn : Entry :=
  ⟨.transaction, ⟨2020, 4, 8⟩, "!", "AMAZON MKTP US*123", none, "", "", .list [], .list [],
    [], [bankPosting]⟩

/-- The same transaction with the narration lower-cased. -/
def lowerAmazonTxn : Entry :=
  { upperAmazonTxn with narration := "amazon mktp us*123" }

/-- C4 (code_bug): rule regexes are compiled without `re.IGNORECASE`
(`re.compile(v)` in `add_match_directive`), so the compiled rule for pattern
`amazon.*` matches the lower-case narration but returns no match on the
upper-case one — matching is case-sensitive, not case-insensitive. -/
theorem claim4_code_bug_eval :
    Rule.add_match_directive ⟨[], []⟩ "match-narration" (.str "amazon.*") =
      .ok ⟨[("transaction-narration", amazonMR)], []⟩ ∧
    amazonMR.match_entry lowerAmazonTxn = .ok (some []) ∧
    amazonMR.match_entry upperAmazonTxn = .ok none :=
  ⟨rfl, rfl, rfl⟩

/-- The flat meta rule mapping of C5. -/
def metaRuleFlat : List (String × RuleVal) := [("match-meta-custom1", .str "X.*")]

/-- The nested spelling of the same rule, the one form the compiler accepts. -/
def metaRuleNested : List (String × RuleVal) := [("match", .dict [("meta-custom1", .str "X.*")])]

/-- What the nested spelling compiles to (scope group present-but-`None`, so
the requirement key renders as `None-meta-custom1`). -/
def metaRuleCompiled : Rule :=
  ⟨[("None-meta-custom1", ⟨none, none, some "meta", some "custom1", ["X.*"]⟩)], []⟩

/-- A pending transaction whose metadata carries `custom1: "X123"`. -/
def custom1Txn : Entry :=
  ⟨.transaction, ⟨2020, 4, 8⟩, "!", "stmt", none, "", "", .list [], .list [],
    [("custom1", .str "X123")], []⟩

/-- The same transaction without the `custom1` key. -/
def noCustom1Txn : Entry := { custom1Txn with meta := [] }

/-- C5 (code_bug): the rule `{match-meta-custom1: "X.*"}` does not compile —
`Rule.compile` asserts every dash component of the key against
`valid_fields`, and `custom1` is not one.  The nested spelling does compile,
and then an entry carrying `custom1` matches with an empty capture map, but
an entry lacking `custom1` raises `KeyError` from
`MatchRule.extract_value`'s bare `obj.meta[self.meta_key]` instead of
reporting no match. -/
theorem claim5_code_bug_eval :
    mkRule metaRuleFlat = .error "AssertionError: field not in valid_fields" ∧
    mkRule metaRuleNested = .ok metaRuleCompiled ∧
    metaRuleCompiled.check custom1Txn = .ok (some []) ∧
    metaRuleCompiled.check noCustom1Txn = .error "KeyError" :=
  ⟨rfl, rfl, rfl, rfl⟩

/-- A rule dict with a single transaction-scope Set Rule (the nested `set`
spelling is the one the compiler accepts for transaction fields). -/
def txnOnlyRuleDict : List (String × RuleVal) := [("set", .dict [("narration", .str "Resolved")])]

/-- What `txnOnlyRuleDict` compiles to. -/
def txnOnlyRule : Rule :=
  ⟨[], [⟨none, some "transaction", some "narration", none, .str "Resolved"⟩]⟩

/-- A `!`-flagged transaction whose single posting is also flagged `!`. -/
def pendingTxn : Entry :=
  ⟨.transaction, ⟨2020, 4, 8⟩, "!", "AMZN Mktp US*L08746BB3", none, "", "", .list [], .list [],
    [], [bankPosting]⟩

/-- C3 counterexample: `Rule.modify_entry` promotes flags only inside its
posting-scope branch, so a compiled rule whose Set Rules are all
transaction-scope leaves the `!` transaction flag and the `!` posting flag
untouched — the claimed promotion to `*` does not happen for every rule. -/
theorem claim3_counterexample :
    mkRule txnOnlyRuleDict = .ok txnOnlyRule ∧
    txnOnlyRule.modify_entry pendingTxn [] =
      .ok ({ pendingTxn with narration := "Resolved" }, pendingTxn) ∧
    ({ pendingTxn with narration := "Resolved" }).flag = "!" ∧
    ({ pendingTxn with narration := "Resolved" }).postings = [bankPosting] ∧
    bankPosting.flag = "!" :=
  ⟨rfl, rfl, rfl, rfl, rfl⟩

/-- C6 counterexample: a capture named `meta_*` is written through
`entry.meta[meta_name] = value`, a genuine in-place write into the metadata
dict that the caller's entry still shares, so the input entry is mutated:
after the call the original carries `order: "A1"`. -/
theorem claim6_counterexample :
    txnOnlyRule.modify_entry pendingTxn [("meta_order", "A1")] =
      .ok ({ pendingTxn with narration := "Resolved", meta := [("order", .str "A1")] },
           { pendingTxn with meta := [("order", .str "A1")] }) ∧
    { pendingTxn with meta := [("order", .str "A1")] } ≠ pendingTxn :=
  ⟨rfl, by decide⟩

/-! ### Lemmas about `modify_entry` -/

/-- A capture step never touches the flag or the postings. -/
theorem capStep_flag_postings (st : ModState) (kv : String × String) :
    (capStep st kv).cur.flag = st.cur.flag ∧ (capStep st kv).cur.postings = st.cur.postings := by
  unfold capStep
  dsimp only
  split <;> split <;> exact ⟨rfl, rfl⟩

/-- The capture loop never touches the flag or the postings. -/
theorem applyCaptures_flag_postings (mv : List (String × String)) : ∀ st : ModState,
    (applyCaptures st mv).cur.flag = st.cur.flag ∧
    (applyCaptures st mv).cur.postings = st.cur.postings := by
  induction mv with
  | nil => intro st; exact ⟨rfl, rfl⟩
  | cons kv rest ih =>
    intro st
    have h := capStep_flag_postings st kv
    have h' := ih (capStep st kv)
    simp only [applyCaptures, List.foldl_cons] at h' ⊢
    exact ⟨h'.1.trans h.1, h'.2.trans h.2⟩

/-- A posting `_replace` always stamps the `*` flag. -/
theorem setPostingField_flag {p : Posting} {param : Option String} {v : RuleVal} {q : Posting}
    (h : setPostingField p param v = .ok q) : q.flag = "*" := by
  unfold setPostingField at h
  split at h
  · injection h with h; subst h; rfl
  · injection h with h; subst h; rfl
  · cases h

/-- After the posting loop no posting is left flagged `!`. -/
theorem mapPostings_no_pending : ∀ {l : List Posting} {param : Option String} {v : RuleVal}
    {ps : List Posting}, mapPostings l param v = .ok ps → ∀ q ∈ ps, q.flag ≠ "!" := by
  intro l
  induction l with
  | nil =>
    intro param v ps h q hq
    unfold mapPostings at h
    injection h with h
    subst h
    cases hq
  | cons p rest ih =>
    intro param v ps h q hq
    unfold mapPostings at h
    by_cases hp : p.flag = "!"
    · rw [if_pos hp] at h
      cases hset : setPostingField p param v with
      | error m => rw [hset] at h; cases h
      | ok q1 =>
        rw [hset] at h
        cases hrest : mapPostings rest param v with
        | error m => rw [hrest] at h; cases h
        | ok qs =>
          rw [hrest] at h
          injection h with h
          subst h
          rcases List.mem_cons.mp hq with hq | hq
          · subst hq
            rw [setPostingField_flag hset]
            decide
          · exact ih hrest q hq
    · rw [if_neg hp] at h
      cases hrest : mapPostings rest param v with
      | error m => rw [hrest] at h; cases h
      | ok qs =>
        rw [hrest] at h
        injection h with h
        subst h
        rcases List.mem_cons.mp hq with hq | hq
        · subst hq; exact hp
        · exact ih hrest q hq

/-- A `_replace` on a transaction field other than `flag` keeps the flag and
the postings. -/
theorem setTxField_preserves {e : Entry} {p : Option String} {v : RuleVal} {e' : Entry}
    (h : setTxField e p v = .ok e') (hp : p ≠ some "flag") :
    e'.flag = e.flag ∧ e'.postings = e.postings := by
  unfold setTxField at h
  split at h
  · injection h with h; subst h; exact ⟨rfl, rfl⟩
  · injection h with h; subst h; exact ⟨rfl, rfl⟩
  · exact absurd rfl hp
  · injection h with h; subst h; exact ⟨rfl, rfl⟩
  · injection h with h; subst h; exact ⟨rfl, rfl⟩
  · injection h with h; subst h; exact ⟨rfl, rfl⟩
  · injection h with h; subst h; exact ⟨rfl, rfl⟩
  · cases h

/-- A posting-scope Set Rule leaves the entry confirmed with no pending
posting, whatever the state it runs on. -/
theorem applySetRule_good {mv : List (String × String)} {st st' : ModState} {sr : SetRule}
    (hd : sr.directive = some "posting")
    (h : applySetRule mv st sr = .ok st') :
    st'.cur.flag = "*" ∧ ∀ p ∈ st'.cur.postings, p.flag ≠ "!" := by
  unfold applySetRule applySetBranch at h
  rw [if_neg (by rw [hd]; decide), if_pos hd] at h
  cases hmap : mapPostings st.cur.postings sr.parameter sr.value with
  | error m => rw [hmap] at h; cases h
  | ok ps =>
    rw [hmap] at h
    injection h with h
    subst h
    have hc := applyCaptures_flag_postings mv
      ⟨{ st.cur with postings := ps, flag := "*" }, st.origMeta, st.shared⟩
    constructor
    · rw [hc.1]
    · intro p hp
      rw [hc.2] at hp
      exact mapPostings_no_pending hmap p hp

/-- A Set Rule that is not posting-scope, and that does not name the `flag`
field at transaction scope, keeps the flag and postings. -/
theorem applySetRule_preserves {mv : List (String × String)} {st st' : ModState} {sr : SetRule}
    (hd : sr.directive ≠ some "posting")
    (hfp : sr.directive = some "transaction" → truthyOptStr sr.meta_key = false →
      sr.parameter ≠ some "flag")
    (h : applySetRule mv st sr = .ok st') :
    st'.cur.flag = st.cur.flag ∧ st'.cur.postings = st.cur.postings := by
  unfold applySetRule applySetBranch at h
  by_cases ht : sr.directive = some "transaction"
  · rw [if_pos ht] at h
    by_cases hm : truthyOptStr sr.meta_key = true
    · rw [if_pos hm] at h
      split at h
      · cases h
      · rename_i st1 heq
        injection h with h
        subst h
        split at heq
        · injection heq with heq
          subst heq
          exact ⟨(applyCaptures_flag_postings mv _).1, (applyCaptures_flag_postings mv _).2⟩
        · cases heq
    · rw [if_neg hm] at h
      cases hset : setTxField st.cur sr.parameter sr.value with
      | error m => rw [hset] at h; cases h
      | ok e' =>
        rw [hset] at h
        injection h with h
        subst h
        have hps := setTxField_preserves hset (hfp ht (Bool.not_eq_true _ ▸ hm))
        have hc := applyCaptures_flag_postings mv ⟨e', st.origMeta, st.shared⟩
        exact ⟨hc.1.trans hps.1, hc.2.trans hps.2⟩
  · rw [if_neg ht, if_neg hd] at h
    injection h with h
    subst h
    have hc := applyCaptures_flag_postings mv st
    exact ⟨hc.1, hc.2⟩

/-- Once the entry is confirmed with no pending posting, the rest of the Set
Rules (subject to the flag-field restriction) keep it that way. -/
theorem setRulesFold_keeps_good {mv : List (String × String)} :
    ∀ {srs : List SetRule} {st st' : ModState},
    st.cur.flag = "*" → (∀ p ∈ st.cur.postings, p.flag ≠ "!") →
    (∀ sr ∈ srs, sr.directive = some "transaction" → truthyOptStr sr.meta_key = false →
      sr.parameter ≠ some "flag") →
    setRulesFold mv st srs = .ok st' →
    st'.cur.flag = "*" ∧ ∀ p ∈ st'.cur.postings, p.flag ≠ "!" := by
  intro srs
  induction srs with
  | nil =>
    intro st st' hf hp _ h
    injection h with h
    subst h
    exact ⟨hf, hp⟩
  | cons sr rest ih =>
    intro st st' hf hp hyp h
    unfold setRulesFold at h
    cases hstep : applySetRule mv st sr with
    | error m => rw [hstep] at h; cases h
    | ok st1 =>
      rw [hstep] at h
      by_cases hd : sr.directive = some "posting"
      · have hg := applySetRule_good hd hstep
        exact ih hg.1 hg.2 (fun sr' h' => hyp sr' (List.mem_cons_of_mem _ h')) h
      · have hg := applySetRule_preserves hd (hyp sr (List.mem_cons_self _ _)) hstep
        exact ih (hg.1.trans hf) (fun p hps => hp p (hg.2 ▸ hps))
          (fun sr' h' => hyp sr' (List.mem_cons_of_mem _ h')) h

/-- If some Set Rule in the list is posting-scope, the fold ends confirmed
with no pending posting. -/
theorem setRulesFold_promotes {mv : List (String × String)} :
    ∀ {srs : List SetRule} {st st' : ModState},
    (∃ sr ∈ srs, sr.directive = some "posting") →
    (∀ sr ∈ srs, sr.directive = some "transaction" → truthyOptStr sr.meta_key = false →
      sr.parameter ≠ some "flag") →
    setRulesFold mv st srs = .ok st' →
    st'.cur.flag = "*" ∧ ∀ p ∈ st'.cur.postings, p.flag ≠ "!" := by
  intro srs
  induction srs with
  | nil =>
    intro st st' hex _ _
    rcases hex with ⟨sr, hsr, _⟩
    cases hsr
  | cons sr rest ih =>
    intro st st' hex hyp h
    unfold setRulesFold at h
    cases hstep : applySetRule mv st sr with
    | error m => rw [hstep] at h; cases h
    | ok st1 =>
      rw [hstep] at h
      by_cases hd : sr.directive = some "posting"
      · have hg := applySetRule_good hd hstep
        exact setRulesFold_keeps_good hg.1 hg.2
          (fun sr' h' => hyp sr' (List.mem_cons_of_mem _ h')) h
      · rcases hex with ⟨sr', hsr', hsr'd⟩
        rcases List.mem_cons.mp hsr' with heq | hmem
        · exact absurd (heq ▸ hsr'd) hd
        · exact ih ⟨sr', hmem, hsr'd⟩ (fun sr' h' => hyp sr' (List.mem_cons_of_mem _ h')) h

/-- C3 amended: applying a Rule whose Set Rules include at least one
posting-scope rule, and none that rewrites the transaction `flag` field
directly, to a `!`-flagged entry with all postings `!` yields an entry
flagged `*` with no posting flagged `!`. -/
theorem claim3_amended (r : Rule) (e : Entry) (mv : List (String × String)) (res orig : Entry)
    (_hef : e.flag = "!") (_hpost : ∀ p ∈ e.postings, p.flag = "!")
    (hsome : ∃ sr ∈ r.set_rules, sr.directive = some "posting")
    (hflag : ∀ sr ∈ r.set_rules, sr.directive = some "transaction" →
      truthyOptStr sr.meta_key = false → sr.parameter ≠ some "flag")
    (hok : r.modify_entry e mv = .ok (res, orig)) :
    res.flag = "*" ∧ ∀ p ∈ res.postings, p.flag ≠ "!" := by
  unfold Rule.modify_entry at hok
  cases hfold : setRulesFold mv ⟨e, e.meta, true⟩ r.set_rules with
  | error m => rw [hfold] at hok; cases hok
  | ok st =>
    rw [hfold] at hok
    injection hok with hok
    have hres : res = st.cur := by
      have := congrArg Prod.fst hok
      exact this.symm
    subst hres
    exact setRulesFold_promotes hsome hflag hfold

/-- A rule dict with a posting-scope Set Rule. -/
def postingRuleDict : List (String × RuleVal) :=
  [("set", .dict [("account", .str "Expenses:Shopping")])]

/-- What `postingRuleDict` compiles to. -/
def postingRule : Rule :=
  ⟨[], [⟨none, some "posting", some "account", none, .str "Expenses:Shopping"⟩]⟩

/-- The posting rule compiles as claimed (context for the C3 witness). -/
theorem postingRule_compiles : mkRule postingRuleDict = .ok postingRule := rfl

/-- The entry the posting rule produces from `pendingTxn`. -/
def promotedTxn : Entry :=
  { pendingTxn with postings := [⟨"Expenses:Shopping", "*", none, []⟩], flag := "*" }

/-- Witness for the amended C3 at a concrete rule and entry. -/
theorem claim3_amended_witness :
    promotedTxn.flag = "*" ∧ ∀ p ∈ promotedTxn.postings, p.flag ≠ "!" :=
  claim3_amended postingRule pendingTxn [] promotedTxn pendingTxn rfl
    (by intro p hp; rcases List.mem_singleton.mp hp with rfl; rfl)
    ⟨⟨none, some "posting", some "account", none, .str "Expenses:Shopping"⟩,
      List.Mem.head _, rfl⟩
    (by
      intro sr hsr ht
      rcases List.mem_singleton.mp hsr with rfl
      exact absurd ht (by decide))
    rfl

/-! ### Lemmas for the amended C6 -/

/-- A capture step with a non-`meta_*` name leaves the caller's metadata
dict alone. -/
theorem capStep_origMeta {kv : String × String} (st : ModState)
    (h : ¬ pyStartsWith kv.1 "meta_" = true) : (capStep st kv).origMeta = st.origMeta := by
  unfold capStep
  dsimp only
  rw [if_neg h]
  split <;> rfl

/-- The capture loop with no `meta_*` names leaves the caller's metadata
dict alone. -/
theorem applyCaptures_origMeta {mv : List (String × String)}
    (h : ∀ kv ∈ mv, ¬ pyStartsWith kv.1 "meta_" = true) :
    ∀ st : ModState, (applyCaptures st mv).origMeta = st.origMeta := by
  induction mv with
  | nil => intro st; rfl
  | cons kv rest ih =>
    intro st
    have h1 := capStep_origMeta st (h kv (List.mem_cons_self _ _))
    have h2 := ih (fun kv' hk => h kv' (List.mem_cons_of_mem _ hk)) (capStep st kv)
    simp only [applyCaptures, List.foldl_cons] at h2 ⊢
    exact h2.trans h1

/-- The scope dispatch of a Set Rule never touches the caller's metadata
dict. -/
theorem applySetBranch_origMeta {st st' : ModState} {sr : SetRule}
    (h : applySetBranch st sr = .ok st') : st'.origMeta = st.origMeta := by
  unfold applySetBranch at h
  split at h
  · split at h
    · split at h
      · injection h with h; subst h; rfl
      · cases h
    · split at h
      · cases h
      · injection h with h; subst h; rfl
  · split at h
    · split at h
      · cases h
      · injection h with h; subst h; rfl
    · injection h with h; subst h; rfl

/-- One Set Rule application with no `meta_*` capture leaves the caller's
metadata dict alone. -/
theorem applySetRule_origMeta {mv : List (String × String)} {st st' : ModState} {sr : SetRule}
    (hmv : ∀ kv ∈ mv, ¬ pyStartsWith kv.1 "meta_" = true)
    (h : applySetRule mv st sr = .ok st') : st'.origMeta = st.origMeta := by
  unfold applySetRule at h
  cases hb : applySetBranch st sr with
  | error m => rw [hb] at h; cases h
  | ok st1 =>
    rw [hb] at h
    injection h with h
    subst h
    exact (applyCaptures_origMeta hmv st1).trans (applySetBranch_origMeta hb)

/-- The Set Rule fold with no `meta_*` capture leaves the caller's metadata
dict alone. -/
theorem setRulesFold_origMeta {mv : List (String × String)}
    (hmv : ∀ kv ∈ mv, ¬ pyStartsWith kv.1 "meta_" = true) :
    ∀ {srs : List SetRule} {st st' : ModState},
    setRulesFold mv st srs = .ok st' → st'.origMeta = st.origMeta := by
  intro srs
  induction srs with
  | nil =>
    intro st st' h
    injection h with h
    subst h
    rfl
  | cons sr rest ih =>
    intro st st' h
    unfold setRulesFold at h
    cases hstep : applySetRule mv st sr with
    | error m => rw [hstep] at h; cases h
    | ok st1 =>
      rw [hstep] at h
      exact (ih h).trans (applySetRule_origMeta hmv hstep)

/-- The entries of `remove_exising_duplicate` are a subset of the input
entries (it only ever erases). -/
theorem remove_exising_duplicate_subset (s : OrgState) (e : Entry) :
    ∀ x ∈ (remove_exising_duplicate s e).entries, x ∈ s.entries := by
  intro x hx
  unfold remove_exising_duplicate at hx
  dsimp only at hx
  split at hx
  · exact hx
  · split at hx
    · exact hx
    · split at hx
      · exact hx
      · dsimp only at hx
        split at hx
        · exact List.mem_of_mem_erase hx
        · exact hx

/-- C6 amended: `Rule.modify_entry` copies the entry for every field
replacement and returns the caller's entry unchanged provided no capture
name begins with `meta_` (a `meta_*` capture is instead written into the
shared metadata dict in place); and organizer.py's merge engine never hands
back anything but original entries and the incoming entry with only the
`_account` metadata key added. -/
theorem claim6_amended :
    (∀ (r : Rule) (e : Entry) (mv : List (String × String)) (res orig : Entry),
      (∀ kv ∈ mv, ¬ pyStartsWith kv.1 "meta_" = true) →
      r.modify_entry e mv = .ok (res, orig) → orig = e) ∧
    (∀ (fmt : Entry → String) (s : OrgState) (e : Entry) (s' : OrgState),
      safe_add_entry fmt s e = some s' →
      ∀ x ∈ s'.entries, x ∈ s.entries ∨ x = tagAccount e) := by
  constructor
  · intro r e mv res orig hmv hok
    unfold Rule.modify_entry at hok
    cases hfold : setRulesFold mv ⟨e, e.meta, true⟩ r.set_rules with
    | error m => rw [hfold] at hok; cases hok
    | ok st =>
      rw [hfold] at hok
      injection hok with hok
      have horig : orig = { e with meta := st.origMeta } := (congrArg Prod.snd hok).symm
      have hmeta : st.origMeta = e.meta := setRulesFold_origMeta hmv hfold
      rw [horig, hmeta]
  · intro fmt s e s' h x hx
    unfold safe_add_entry at h
    split at h
    · cases h
    · split at h
      · injection h with h; subst h; exact Or.inl hx
      · split at h
        · injection h with h; subst h; exact Or.inl hx
        · split at h
          · injection h with h; subst h; exact Or.inl hx
          · injection h with h
            subst h
            dsimp only at hx
            rcases List.mem_append.mp hx with hmem | hmem
            · exact Or.inl (remove_exising_duplicate_subset s (tagAccount e) x hmem)
            · rcases List.mem_cons.mp hmem with rfl | hmem
              · exact Or.inr rfl
              · rcases List.mem_singleton.mp hmem with rfl
                exact Or.inr rfl

/-- Witness for the amended C6 at concrete inputs. -/
theorem claim6_amended_witness :
    pendingTxn = pendingTxn ∧ tagAccount pendingTxn = tagAccount pendingTxn :=
  ⟨claim6_amended.1 txnOnlyRule pendingTxn [("payee", "acme")]
      { pendingTxn with narration := "Resolved", payee := some "Acme" } pendingTxn
      (by decide) rfl,
    rfl⟩

/-! ### Lemmas for C7 (match-rule union) -/

/-- Membership after a Python set insertion. -/
theorem mem_setAdd {l : List String} {x a : String} : a ∈ setAdd l x ↔ a ∈ l ∨ a = x := by
  unfold setAdd
  split
  · rename_i hx
    constructor
    · exact Or.inl
    · rintro (h | rfl)
      · exact h
      · exact hx
  · simp [List.mem_append]

/-- Membership after folding a list into a Python set. -/
theorem mem_foldl_setAdd (l : List String) : ∀ (acc : List String) (a : String),
    a ∈ l.foldl setAdd acc ↔ a ∈ acc ∨ a ∈ l := by
  induction l with
  | nil => intro acc a; simp
  | cons x rest ih =>
    intro acc a
    simp only [List.foldl_cons]
    rw [ih (setAdd acc x) a, mem_setAdd]
    constructor
    · rintro ((h | rfl) | h)
      · exact Or.inl h
      · exact Or.inr (List.mem_cons_self _ _)
      · exact Or.inr (List.mem_cons_of_mem _ h)
    · rintro (h | h)
      · exact Or.inl (Or.inl h)
      · rcases List.mem_cons.mp h with rfl | h
        · exact Or.inl (Or.inr rfl)
        · exact Or.inr h

/-- Building a Python set keeps exactly the members. -/
theorem mem_pySet {l : List String} {a : String} : a ∈ pySet l ↔ a ∈ l := by
  unfold pySet
  rw [mem_foldl_setAdd]
  simp

/-- Two pattern lists with the same members are set-equal. -/
theorem setEqList_of_same_mem {a b : List String} (h : ∀ x, x ∈ a ↔ x ∈ b) :
    setEqList a b = true := by
  unfold setEqList
  rw [Bool.and_eq_true, List.all_eq_true, List.all_eq_true]
  constructor
  · intro x hx
    simp only [List.contains, List.elem_eq_mem, decide_eq_true_eq]
    exact (h x).mp hx
  · intro x hx
    simp only [List.contains, List.elem_eq_mem, decide_eq_true_eq]
    exact (h x).mpr hx

/-- The scope the compiler infers for a field name. -/
def scopeOfField (f : String) : String :=
  if f = "account" then "posting" else "transaction"

/-- Compile two match directives into one rule, in order. -/
def addTwoDirectives (k1 k2 : String) (v1 v2 : RuleVal) : Except String Rule :=
  match Rule.add_match_directive ⟨[], []⟩ k1 v1 with
  | .error m => .error m
  | .ok r => Rule.add_match_directive r k2 v2

/-- C7 (confirmed): two match directives for the same (scope, field) pair —
one spelled bare, one with the explicit scope — compile to a single Match
Rule keyed by that pair whose regex set is the union of both value sets, and
swapping the declaration order yields a structurally equal Match Rule
(`MatchRule.__eq__` compares the regex sets as sets). -/
theorem claim7_union (f : String)
    (hf : f ∈ (["narration", "payee", "tags", "account"] : List String))
    (v1 v2 : List String) :
    ∃ m1 m2 : MatchRule,
      addTwoDirectives ("match-" ++ f) ("match-" ++ scopeOfField f ++ "-" ++ f)
          (.list v1) (.list v2) =
        .ok ⟨[(scopeOfField f ++ "-" ++ f, m1)], []⟩ ∧
      addTwoDirectives ("match-" ++ scopeOfField f ++ "-" ++ f) ("match-" ++ f)
          (.list v2) (.list v1) =
        .ok ⟨[(scopeOfField f ++ "-" ++ f, m2)], []⟩ ∧
      (∀ p, p ∈ m1.regular_expressions ↔ p ∈ v1 ∨ p ∈ v2) ∧
      (∀ p, p ∈ m2.regular_expressions ↔ p ∈ v1 ∨ p ∈ v2) ∧
      matchRuleEq m1 m2 = true := by
  have hs : setEqList ((pySet v2).foldl setAdd (pySet v1))
      ((pySet v1).foldl setAdd (pySet v2)) = true := by
    apply setEqList_of_same_mem
    intro x
    simp only [mem_foldl_setAdd, mem_pySet]
    exact or_comm
  fin_cases hf
  all_goals
    refine ⟨_, _, rfl, rfl, ?_, ?_, ?_⟩ <;>
      first
        | (intro p
           simp only [patternsOf, mem_foldl_setAdd, mem_pySet]
           exact or_comm)
        | (intro p
           simp only [patternsOf, mem_foldl_setAdd, mem_pySet])
        | (unfold matchRuleEq
           simp only [Bool.and_eq_true]
           exact ⟨⟨⟨rfl, rfl⟩, rfl⟩, by
             simp only [patternsOf]
             exact hs⟩)

/-- Witness for C7 at a concrete field and value pair. -/
theorem claim7_union_witness :
    ∃ m1 m2 : MatchRule,
      addTwoDirectives ("match-" ++ "narration")
          ("match-" ++ scopeOfField "narration" ++ "-" ++ "narration")
          (.list ["a"]) (.list ["b"]) =
        .ok ⟨[(scopeOfField "narration" ++ "-" ++ "narration", m1)], []⟩ ∧
      addTwoDirectives ("match-" ++ scopeOfField "narration" ++ "-" ++ "narration")
          ("match-" ++ "narration") (.list ["b"]) (.list ["a"]) =
        .ok ⟨[(scopeOfField "narration" ++ "-" ++ "narration", m2)], []⟩ ∧
      (∀ p, p ∈ m1.regular_expressions ↔ p ∈ ["a"] ∨ p ∈ ["b"]) ∧
      (∀ p, p ∈ m2.regular_expressions ↔ p ∈ ["a"] ∨ p ∈ ["b"]) ∧
      matchRuleEq m1 m2 = true :=
  claim7_union "narration" (by decide) ["a"] ["b"]

/-! ### C8: the by-date sort order -/

/-- Entry A of the sort scenario: date 2020-01-01, narration `Zebra`. -/
def zebraTxn : Entry :=
  ⟨.transaction, ⟨2020, 1, 1⟩, "*", "Zebra", none, "", "", .list [], .list [],
    [("_account", .str "Assets:Bank")], [⟨"Assets:Bank", "*", none, []⟩]⟩

/-- Entry B of the sort scenario: same date, narration `Apple`. -/
def appleTxn : Entry := { zebraTxn with narration := "Apple" }

/-- C8 (confirmed): sorting `[A, B]` by date yields `[B, A]` (narration is
the last tiebreaker), and in general the by-date key of a transaction with
postings is the tuple `(global-sort hint, date, sort hint, type precedence,
account path tuple, negated absolute first-posting price, narration)` with
both missing hints defaulting to the constant 100. -/
theorem claim8_sort :
    sorted_entries "date" [zebraTxn, appleTxn] = .ok [appleTxn, zebraTxn] ∧
    ∀ (e : Entry) (acct : String) (p : Posting) (rest : List Posting),
      e.kind = .transaction → e.postings = p :: rest →
      assocGet e.meta "_account" = some (.str acct) →
      assocGet e.meta "global-sort" = none →
      assocGet e.meta "sort" = none →
      sort_key "date" e = .ok (.byDate 100 e.date 100 0 (splitOnColon acct)
        (match p.priceNumber with
         | some n => -(n.natAbs : Int)
         | none => 0) e.narration) := by
  constructor
  · rfl
  · intro e acct p rest hk hp hacct hg hs
    unfold sort_key metaSortHint
    rw [hacct, hg, hs, hk, hp]
    rfl

/-- Witness for the general part of C8 at the Zebra entry. -/
theorem claim8_sort_witness :
    sort_key "date" zebraTxn =
      .ok (.byDate 100 ⟨2020, 1, 1⟩ 100 0 ["Assets", "Bank"] 0 "Zebra") :=
  claim8_sort.2 zebraTxn "Assets:Bank" ⟨"Assets:Bank", "*", none, []⟩ []
    rfl rfl rfl rfl rfl

/-! ### C10: match_directives touches only pending entries -/

/-- Shape of a successful `match_directives` fold: it appends one output
entry per input entry, and inputs whose flag attribute is not `!` come out
unchanged at their position. -/
theorem mdFold_ok_shape (rules : List Rule) : ∀ (entries : List Entry) (acc out : MDOut),
    mdFold rules acc entries = .ok out →
    ∃ tail : List Entry, out.newEntries = acc.newEntries ++ tail ∧
      tail.length = entries.length ∧
      ∀ (i : Nat) (h : i < entries.length) (h' : i < tail.length),
        entryFlagAttr (entries.get ⟨i, h⟩) ≠ some "!" →
        tail.get ⟨i, h'⟩ = entries.get ⟨i, h⟩ := by
  intro entries
  induction entries with
  | nil =>
    intro acc out h
    injection h with h
    subst h
    exact ⟨[], (List.append_nil _).symm, rfl, fun i h _ _ => absurd h (Nat.not_lt_zero i)⟩
  | cons e rest ih =>
    intro acc out h
    unfold mdFold at h
    cases hstep : mdStep rules acc e with
    | error m => rw [hstep] at h; cases h
    | ok acc1 =>
      rw [hstep] at h
      rcases ih acc1 out h with ⟨tail, hout, hlen, hpos⟩
      unfold mdStep at hstep
      by_cases hf : entryFlagAttr e ≠ some "!"
      · rw [if_pos hf] at hstep
        injection hstep with hstep
        subst hstep
        refine ⟨e :: tail, ?_, by simp [hlen], ?_⟩
        · rw [hout]
          simp
        · intro i hi hi' hflag
          match i with
          | 0 => rfl
          | j + 1 =>
            exact hpos j (Nat.lt_of_succ_lt_succ hi) (Nat.lt_of_succ_lt_succ hi') hflag
      · rw [if_neg hf] at hstep
        cases hloop : applyRulesLoop e false rules with
        | error m => rw [hloop] at hstep; cases hstep
        | ok pair =>
          rw [hloop] at hstep
          injection hstep with hstep
          subst hstep
          refine ⟨pair.1 :: tail, ?_, by simp [hlen], ?_⟩
          · rw [hout]
            simp
          · intro i hi hi' hflag
            match i with
            | 0 => exact absurd hflag hf
            | j + 1 =>
              exact hpos j (Nat.lt_of_succ_lt_succ hi) (Nat.lt_of_succ_lt_succ hi') hflag

/-- When no entry is pending, the fold is the identity on the stream and
never consults the rules. -/
theorem mdFold_pass (rules : List Rule) : ∀ (entries : List Entry) (acc : MDOut),
    (∀ e ∈ entries, entryFlagAttr e ≠ some "!") →
    mdFold rules acc entries =
      .ok ⟨acc.newEntries ++ entries, acc.modEntries, acc.noMatchEntries⟩ := by
  intro entries
  induction entries with
  | nil => intro acc _; simp [mdFold]
  | cons e rest ih =>
    intro acc hall
    unfold mdFold mdStep
    rw [if_pos (hall e (List.mem_cons_self _ _))]
    dsimp only
    rw [ih _ (fun e' he' => hall e' (List.mem_cons_of_mem _ he'))]
    simp

/-- C10 (confirmed): `match_directives` checks rules only against entries
whose flag attribute is `!`.  Every entry whose flag attribute is not `!`
reaches `new_entries` at its own position completely unchanged, and a stream
with no pending entry passes through identically whatever the rule list —
no rule is ever consulted for it. -/
theorem claim10_pending_only :
    (∀ (rules : List Rule) (entries : List Entry) (out : MDOut),
      match_directives rules entries = .ok out →
      out.newEntries.length = entries.length ∧
      ∀ (i : Nat) (h : i < entries.length) (h' : i < out.newEntries.length),
        entryFlagAttr (entries.get ⟨i, h⟩) ≠ some "!" →
        out.newEntries.get ⟨i, h'⟩ = entries.get ⟨i, h⟩) ∧
    (∀ (rules : List Rule) (entries : List Entry),
      (∀ e ∈ entries, entryFlagAttr e ≠ some "!") →
      match_directives rules entries = .ok ⟨entries, [], []⟩) := by
  constructor
  · intro rules entries out h
    rcases mdFold_ok_shape rules entries ⟨[], [], []⟩ out h with ⟨tail, hout, hlen, hpos⟩
    simp only [List.nil_append] at hout
    subst hout
    exact ⟨hlen, hpos⟩
  · intro rules entries hall
    have := mdFold_pass rules entries ⟨[], [], []⟩ hall
    simpa [match_directives] using this

/-- Witness for C10 at a concrete non-pending entry. -/
theorem claim10_pending_only_witness :
    match_directives [] [keyedTxn "*" "conf"] = .ok ⟨[keyedTxn "*" "conf"], [], []⟩ :=
  claim10_pending_only.2 [] [keyedTxn "*" "conf"] (by decide)
